import Mathlib

/-!
Verification of the `@jitl/cli` command-line framework (src/index.ts, src/validate.ts).

The TypeScript source is shallowly embedded: JavaScript dynamic scalar values
become the `Value` inductive (JS numbers are modelled as integers; floating
point values are outside the model), thrown `CommandLineError`s become
`Except` with the `CLIErr` inductive (whose `message`/`details` functions
reproduce the strings and payloads the source builds), other thrown errors
become `RunErr.thrown`, and the two external effectful collaborators —
terminal interactivity and the inquirer prompting module — are modelled as an
explicit `PromptEnv` oracle threaded through the resolution pipeline.
-/

namespace TsCli

/-! ### Decimal rendering of integers (JS number-to-string on integers) -/

/-- Fuel-driven digit extraction: with fuel at least the value, the decimal
digit characters of the value, most significant first (and `[]` at zero). The
fuel makes the recursion structural so that the kernel can evaluate it. -/
def natDigitsAux : Nat → Nat → List Char
  | _, 0 => []
  | 0, _ + 1 => []
  | fuel + 1, n + 1 => natDigitsAux fuel ((n + 1) / 10) ++ [Char.ofNat (48 + (n + 1) % 10)]

/-- Decimal digit characters of a positive natural, most significant first;
`natDigits 0 = []`. -/
def natDigits (n : Nat) : List Char := natDigitsAux n n

theorem natDigitsAux_mono (n : Nat) : ∀ f1 f2, n ≤ f1 → n ≤ f2 →
    natDigitsAux f1 n = natDigitsAux f2 n := by
  induction n using Nat.strong_induction_on with
  | _ n ih =>
    intro f1 f2 h1 h2
    match n, f1, f2, h1, h2 with
    | 0, f1, f2, _, _ =>
      cases f1 <;> cases f2 <;> rfl
    | m + 1, a + 1, b + 1, _, _ =>
      rw [natDigitsAux, natDigitsAux]
      have hd : (m + 1) / 10 < m + 1 := Nat.div_lt_self (Nat.succ_pos m) (by omega)
      rw [ih ((m + 1) / 10) hd a b (by omega) (by omega)]

theorem natDigits_succ (m : Nat) :
    natDigits (m + 1) = natDigits ((m + 1) / 10) ++ [Char.ofNat (48 + (m + 1) % 10)] := by
  show natDigitsAux (m + 1) (m + 1) = natDigitsAux ((m + 1) / 10) ((m + 1) / 10) ++ _
  rw [natDigitsAux]
  have hd : (m + 1) / 10 < m + 1 := Nat.div_lt_self (Nat.succ_pos m) (by omega)
  rw [natDigitsAux_mono ((m + 1) / 10) m ((m + 1) / 10) (by omega) (by omega)]

/-- Decimal rendering of a natural number, as JS renders integral numbers. -/
def natRepr (n : Nat) : String :=
  if n = 0 then "0" else String.mk (natDigits n)

/-- Decimal rendering of an integer, as JS renders integral numbers. -/
def intRepr : Int → String
  | Int.ofNat n => natRepr n
  | Int.negSucc m => "-" ++ natRepr (m + 1)

def digitVal (c : Char) : Nat := c.toNat - 48

def parseNatAcc : List Char → Nat → Nat
  | [], acc => acc
  | c :: rest, acc => parseNatAcc rest (acc * 10 + digitVal c)

/-- Value of a nonempty all-digit character run, else `none`. -/
def parseDigits (l : List Char) : Option Nat :=
  if !l.isEmpty && l.all Char.isDigit then some (parseNatAcc l 0) else none

def hexDigit (c : Char) : Bool :=
  c.isDigit || (decide ('a' ≤ c) && decide (c ≤ 'f')) || (decide ('A' ≤ c) && decide (c ≤ 'F'))

def hexVal (c : Char) : Nat :=
  if c.isDigit then c.toNat - 48
  else if decide ('a' ≤ c) && decide (c ≤ 'f') then c.toNat - 87
  else c.toNat - 55

def parseHexAcc : List Char → Nat → Nat
  | [], acc => acc
  | c :: rest, acc => parseHexAcc rest (acc * 16 + hexVal c)

def parseHexDigits (l : List Char) : Option Nat :=
  if !l.isEmpty && l.all hexDigit then some (parseHexAcc l 0) else none

/-! ### The numeric-literal patterns of `isNumber` (copied from minimist by the
source): `/^0x[0-9a-f]+$/i` and `/^[-+]?(?:\d+(?:\.\d*)?|\.\d+)(e[-+]?\d+)?$/`. -/

/-- Strip one leading `-` or `+` sign, the `[-+]?` part of the pattern. -/
def stripSign : List Char → List Char
  | [] => []
  | c :: rest => if c == '-' || c == '+' then rest else c :: rest

/-- Consume the mantissa part `(?:\d+(?:\.\d*)?|\.\d+)`, returning the rest,
or `none` when no mantissa is present. -/
def afterMantissa : List Char → Option (List Char)
  | [] => none
  | c :: rest =>
    if c == '.' then
      if (rest.headD ' ').isDigit then some (rest.dropWhile Char.isDigit) else none
    else if c.isDigit then
      let rest1 := (c :: rest).dropWhile Char.isDigit
      if rest1.headD ' ' == '.' then some (rest1.tail.dropWhile Char.isDigit)
      else some rest1
    else none

/-- Match the trailing `(e[-+]?\d+)?$` part of the pattern. -/
def matchExp : List Char → Bool
  | [] => true
  | c :: rest =>
    c == 'e' && (!(stripSign rest).isEmpty && (stripSign rest).all Char.isDigit)

/-- Match `/^[-+]?(?:\d+(?:\.\d*)?|\.\d+)(e[-+]?\d+)?$/`. -/
def matchDecLit (l : List Char) : Bool :=
  match afterMantissa (stripSign l) with
  | some rest => matchExp rest
  | none => false

/-- Match `/^0x[0-9a-f]+$/i`. -/
def matchHexLit : List Char → Bool
  | c0 :: c1 :: rest =>
    c0 == '0' && (c1 == 'x' || c1 == 'X') && (!rest.isEmpty && rest.all hexDigit)
  | _ => false

/-- JS `Number(...)` conversion on a string, restricted to the integer model:
hexadecimal and signed decimal integer literals convert exactly; fractional and
exponent literals are outside the integer model of JS numbers and yield `none`. -/
def jsToNumber (l : List Char) : Option Int :=
  if 2 ≤ l.length ∧ l.headD ' ' = '0' ∧ (l.tail.headD ' ' = 'x' ∨ l.tail.headD ' ' = 'X') then
    (parseHexDigits l.tail.tail).map Int.ofNat
  else if l.headD ' ' = '-' then (parseDigits l.tail).map (fun n => -(Int.ofNat n))
  else if l.headD ' ' = '+' then (parseDigits l.tail).map Int.ofNat
  else (parseDigits l).map Int.ofNat

/-- JS `Array.prototype.join(sep)`. -/
def joinSep (sep : String) : List String → String
  | [] => ""
  | [x] => x
  | x :: y :: rest => x ++ sep ++ joinSep sep (y :: rest)

/-- Split a character list at the first `=`, as minimist splits `name=value`. -/
def splitEq : List Char → Option (List Char × List Char)
  | [] => none
  | c :: rest =>
    if c = '=' then some ([], rest)
    else (splitEq rest).map (fun p => (c :: p.1, p.2))

/-! ### JS scalar values -/

/-- A JS scalar value flowing through the pipeline (the source passes around
`boolean | string | number` plus `undefined` for absent keys/indices).
JS numbers are modelled as integers. -/
inductive Value where
  | vStr (s : String)
  | vNum (n : Int)
  | vBool (b : Bool)
  | undefined
  deriving DecidableEq, Repr

/-- JS truthiness of a scalar value. -/
def truthy : Value → Bool
  | .vStr s => !(s == "")
  | .vNum n => !(n == 0)
  | .vBool b => b
  | .undefined => false

/-- JS `.toString()` on a defined scalar value (the undefined value is mapped to the text
`"undefined"`; the source never reaches that case on a defined value). -/
def valueToString : Value → String
  | .vStr s => s
  | .vNum n => intRepr n
  | .vBool b => if b then "true" else "false"
  | .undefined => "undefined"

/-- JS `x.toString()`: calling a method on `undefined` throws a TypeError,
modelled as `Except.error`. -/
def jsToString : Value → Except Unit String
  | .undefined => .error ()
  | v => .ok (valueToString v)

/-- JSON string escaping for quote and backslash (control-character escapes
are outside the model; no claim depends on them). -/
def jsonEscape (s : String) : String :=
  String.mk (s.data.foldr
    (fun c acc => if c = '"' || c = '\\' then '\\' :: c :: acc else c :: acc) [])

/-- JS `JSON.stringify` on a scalar value. `JSON.stringify(undefined)` is not a
string in JS; the source only stringifies defined values. -/
def jsonStringify : Value → String
  | .vStr s => "\"" ++ jsonEscape s ++ "\""
  | .vNum n => intRepr n
  | .vBool b => if b then "true" else "false"
  | .undefined => "undefined"

/-- The source's `inspect = (x) => JSON.stringify(x, null, "  ")`; on scalar
values the indent argument makes no difference. -/
def inspect : Value → String := jsonStringify

/-- The source's `isNumber` (copied from minimist):
`typeof x === "number" || /^0x[0-9a-f]+$/i.test(x.toString()) || /^[-+]?(?:\d+(?:\.\d*)?|\.\d+)(e[-+]?\d+)?$/.test(x.toString())`. -/
def isNumber (x : Value) : Bool :=
  match x with
  | .vNum _ => true
  | _ => matchHexLit (valueToString x).data || matchDecLit (valueToString x).data

/-- The source's `defaultParser` ("a rough estimate of Minimist's behavior"):
numeric-looking input becomes a number, the literal texts `"true"`/`"false"`
become booleans, anything else passes through. A numeric literal outside the
integer fragment (fractional/exponent forms) is outside the model and passes
through unchanged. -/
def defaultParser (value : Value) : Value :=
  if isNumber value then
    match value with
    | .vNum n => .vNum n
    | _ =>
      match jsToNumber (valueToString value).data with
      | some n => .vNum n
      | none => value
  else if value = .vStr "true" then .vBool true
  else if value = .vStr "false" then .vBool false
  else value

/-! ### Errors

The source throws a single `CommandLineError` class carrying a message and a
details payload. Each throw site is embedded as one constructor of `CLIErr`;
`CLIErr.message` and `CLIErr.details` rebuild exactly the message string and
details payload that throw site constructs. -/

/-- The `details` payload attached to a `CommandLineError`. -/
inductive ErrDetails where
  | value (v : Value)
  | names (ns : List String)
  | values (vs : List Value)
  | text (s : String)
  deriving DecidableEq, Repr

/-- One constructor per `throw new CommandLineError(...)` site in the source. -/
inductive CLIErr where
  | parseError (name : String) (raw : Value) (errMsg : String)
  | invalidValue (name : String) (value : Value)
  | invalidDefault (name : String) (value : Value)
  | cannotPrompt (name : String)
  | promptInvalid (name : String) (value : Value)
  | unknownFlags (names : List String)
  | expectedZeroArgs (given : List Value)
  | expectedAtMost (n : Nat) (given : List Value)
  | commandNotFound (name : String)
  deriving DecidableEq, Repr

/-- The message each throw site builds (the `"non-iteractive"` typo and the
stray `)` after an invalid value are the source's own). -/
def CLIErr.message : CLIErr → String
  | .parseError name raw errMsg => name ++ ": cannot parse " ++ inspect raw ++ ": " ++ errMsg
  | .invalidValue name v => name ++ ": invalid value: " ++ inspect v ++ ")"
  | .invalidDefault name v => name ++ ": BUG: the default value was invalid: " ++ inspect v
  | .cannotPrompt name =>
      name ++ ": Required but not given (and cannot prompt in non-iteractive mode)"
  | .promptInvalid name v => name ++ ": prompting returned invalid value: " ++ inspect v
  | .unknownFlags names =>
      "Unknown flags given: " ++ joinSep ", " (names.map (fun n => "--" ++ n))
  | .expectedZeroArgs given =>
      "Expected 0 args, but given " ++ natRepr given.length ++ ": "
        ++ joinSep ", " (given.map inspect)
  | .expectedAtMost n given =>
      "Expected at most " ++ natRepr n ++ " args, but received "
        ++ natRepr given.length ++ ": " ++ joinSep ", " (given.map inspect)
  | .commandNotFound name => "Command not found: " ++ name

/-- The details payload each throw site attaches. -/
def CLIErr.details : CLIErr → ErrDetails
  | .parseError _ raw _ => .value raw
  | .invalidValue _ v => .value v
  | .invalidDefault _ v => .value v
  | .cannotPrompt name => .text name
  | .promptInvalid _ v => .value v
  | .unknownFlags names => .names names
  | .expectedZeroArgs given => .values given
  | .expectedAtMost _ given => .values given
  | .commandNotFound name => .text name

/-- A failure escaping a pipeline function: either a classified
`CommandLineError` (exit code 2 at the entrypoint) or any other thrown error
(exit code 1), such as a throwing user-supplied default producer, or the
TypeError the dispatcher hits calling a method on `undefined`. -/
inductive RunErr where
  | cli (e : CLIErr)
  | thrown (msg : String)
  | typeError
  deriving DecidableEq, Repr

deriving instance DecidableEq for Except

/-- Lift a classified command-line error into the general failure type. -/
def toRun : Except CLIErr α → Except RunErr α
  | .ok a => .ok a
  | .error e => .error (.cli e)

/-! ### Flag and positional-argument declarations -/

/-- The source's `Flag<T>` interface. `validate` is a pure predicate;
`default` may throw (an arbitrary error, modelled by its message); `parse` may
throw (the thrown error's `.message` is the `String`); `prompt` is a custom
interactive resolver, modelled by the value it produces (the inquirer
machinery it may drive is an external collaborator). -/
structure Flag where
  description : String
  validate : Value → Bool
  default : Option (Unit → Except String Value)
  prompt : Option Value
  parse : Option (Value → Except String Value)

/-- The source's `Arg<T>` interface: like `Flag` but with a display name and
no `default` (the interface has no default field at all). -/
structure Arg where
  name : String
  description : String
  validate : Value → Bool
  prompt : Option Value
  parse : Option (Value → Except String Value)

/-- View an `Arg` through the `Arg<T> | Flag<T>` union that `tryParseValue`
and `tryPrompt` accept: the shared fields, with no default. -/
def Arg.toFlag (a : Arg) : Flag :=
  { description := a.description, validate := a.validate, default := none
    prompt := a.prompt, parse := a.parse }

/-- The external interactive collaborators, as an oracle: `interactive` is
`process.stderr.isTTY`, and `answer` is the value the inquirer prompt module
hands back for the framework-constructed question. -/
structure PromptEnv where
  interactive : Bool
  answer : Value

/-- The value obtained by prompting: a custom `prompt` resolver's result when
one is supplied, else whatever the inquirer collaborator returns for the
default question. -/
def promptedValue (flag : Flag) (env : PromptEnv) : Value :=
  match flag.prompt with
  | some v => v
  | none => env.answer

/-- The source's `tryParseValue(name, flag, value)`: apply `parse` when
present (a throwing parser becomes a classified parse error carrying the raw
value), then `validate` (failure is an invalid-value error carrying the
post-parse value). -/
def tryParseValue (name : String) (flag : Flag) (value : Value) : Except CLIErr Value :=
  match (match flag.parse with
         | some p =>
           match p value with
           | .ok v => .ok v
           | .error errMsg => .error (CLIErr.parseError name value errMsg)
         | none => .ok value : Except CLIErr Value) with
  | .error e => .error e
  | .ok finalValue =>
    if flag.validate finalValue then .ok finalValue
    else .error (.invalidValue name finalValue)

/-- The source's `tryPrompt(name, flag)`: fail when not attached to an
interactive terminal; otherwise obtain a value (custom `prompt` resolver or
the default inquirer question) and re-validate it, failing with a distinct
classification when the prompting collaborator returned an invalid value. -/
def tryPrompt (name : String) (flag : Flag) (env : PromptEnv) : Except CLIErr Value :=
  if !env.interactive then
    .error (.cannotPrompt name)
  else
    if flag.validate (promptedValue flag env) then .ok (promptedValue flag env)
    else .error (.promptInvalid name (promptedValue flag env))

/-! ### Raw parsed arguments -/

/-- The source's `MinimistArgv`: the ordered positional token list (the
reserved `_` key) plus the named flag entries in insertion order (any other
key, including a caller-supplied `$0`). -/
structure MinimistArgv where
  pos : List Value
  flags : List (String × Value)
  deriving DecidableEq, Repr

/-- JS `argv[name]` on the flag mapping: `undefined` when absent. -/
def MinimistArgv.get (argv : MinimistArgv) (name : String) : Value :=
  match argv.flags.find? (fun p => p.1 == name) with
  | some p => p.2
  | none => .undefined

/-- JS `name in argv` on the flag mapping. -/
def MinimistArgv.hasKey (argv : MinimistArgv) (name : String) : Bool :=
  (argv.flags.find? (fun p => p.1 == name)).isSome

/-- The source's `wantsHelp`: `Boolean(argv.help || argv.h || argv["?"])`. -/
def wantsHelp (argv : MinimistArgv) : Bool :=
  truthy (argv.get "help") || truthy (argv.get "h") || truthy (argv.get "?")

/-! ### Flag resolution -/

/-- The source's `parseFlag(name, flag, argv)`: a given raw value wins (parse
then validate); else a present `default` produces the value (its failure to
validate is the author's bug); else enter the prompt path. -/
def parseFlag (name : String) (flag : Flag) (argv : MinimistArgv) (env : PromptEnv) :
    Except RunErr Value :=
  if argv.hasKey name then
    toRun (tryParseValue ("--" ++ name) flag (argv.get name))
  else
    match flag.default with
    | some d =>
      match d () with
      | .error msg => .error (.thrown msg)
      | .ok defaulted =>
        if flag.validate defaulted then .ok defaulted
        else .error (.cli (.invalidDefault ("--" ++ name) defaulted))
    | none => toRun (tryPrompt ("--" ++ name) flag env)

/-- The display name `arg ${index + 1} (${arg.name})` used by `parseArg`. -/
def argDisplayName (index : Nat) (arg : Arg) : String :=
  "arg " ++ natRepr (index + 1) ++ " (" ++ arg.name ++ ")"

/-- The source's `parseArg(index, arg, argv)`: a token at the index is parsed
and validated; an absent index goes to the prompt path (`index in argv` on a
dense JS array is an in-bounds check). -/
def parseArg (index : Nat) (arg : Arg) (argv : List Value) (env : PromptEnv) :
    Except CLIErr Value :=
  if index < argv.length then
    tryParseValue (argDisplayName index arg) arg.toFlag (argv.getD index .undefined)
  else tryPrompt (argDisplayName index arg) arg.toFlag env

/-- `flagSet[name]` lookup in a declared flag map (declaration order list).
The fallback record is never reached: the names looked up come from the map's
own keys. -/
def findFlag (flagSet : List (String × Flag)) (name : String) : Flag :=
  match flagSet.find? (fun p => p.1 == name) with
  | some p => p.2
  | none => { description := "", validate := fun _ => false, default := none
              prompt := none, parse := none }

/-- The flag names present in the raw mapping, excluding the two reserved
keys `_` and `$0`, as `parseFlagMap` collects them. -/
def givenFlagNames (argv : MinimistArgv) : List String :=
  (argv.flags.map Prod.fst).filter (fun name => !(name == "_") && !(name == "$0"))

/-- The given names not declared in the flag map, as `parseFlagMap` collects
them before resolving anything. -/
def unknownFlagsOf (flagSet : List (String × Flag)) (argv : MinimistArgv) : List String :=
  (givenFlagNames argv).filter (fun name => !(flagSet.map Prod.fst).contains name)

/-- Declared flag names with a `default`, in declaration order. -/
def defaultableFlagNames (flagSet : List (String × Flag)) : List String :=
  (flagSet.map Prod.fst).filter (fun name => (findFlag flagSet name).default.isSome)

/-- Declared flag names without a `default`, in declaration order. -/
def nonDefaultableFlagNames (flagSet : List (String × Flag)) : List String :=
  (flagSet.map Prod.fst).filter (fun name => !(findFlag flagSet name).default.isSome)

/-- One `for (const name of names) result[name] = await parseFlag(...)` loop
of `parseFlagMap`: resolve each name in order, fail-fast, appending each
resolved entry to the result object. -/
def parseFlags (flagSet : List (String × Flag)) (names : List String)
    (argv : MinimistArgv) (env : PromptEnv) (acc : List (String × Value)) :
    Except RunErr (List (String × Value)) :=
  match names with
  | [] => .ok acc
  | name :: rest =>
    match parseFlag name (findFlag flagSet name) argv env with
    | .error e => .error e
    | .ok v => parseFlags flagSet rest argv env (acc ++ [(name, v)])

/-- The source's `parseFlagMap(flagSet, argv)`: reject unknown given flags
(all of them listed in one error) before resolving anything, then resolve all
defaultable flags in declaration order, then all non-defaultable flags in
declaration order. -/
def parseFlagMap (flagSet : List (String × Flag)) (argv : MinimistArgv) (env : PromptEnv) :
    Except RunErr (List (String × Value)) :=
  if (unknownFlagsOf flagSet argv).length > 0 then
    .error (.cli (.unknownFlags (unknownFlagsOf flagSet argv)))
  else
    match parseFlags flagSet (defaultableFlagNames flagSet) argv env [] with
    | .error e => .error e
    | .ok r1 => parseFlags flagSet (nonDefaultableFlagNames flagSet) argv env r1

/-! ### Positional-argument resolution -/

/-- The `for (let i = 0; ...)` loop of `parseArgsArray`. -/
def parseArgsLoop (args : List Arg) (i : Nat) (givenArgs : List Value) (env : PromptEnv) :
    Except CLIErr (List Value) :=
  match args with
  | [] => .ok []
  | a :: rest =>
    match parseArg i a givenArgs env with
    | .error e => .error e
    | .ok v =>
      match parseArgsLoop rest (i + 1) givenArgs env with
      | .error e => .error e
      | .ok vs => .ok (v :: vs)

/-- The source's `parseArgsArray(argsArray, argv)`. The guard mirrors the
source exactly: it compares `argsArray.length` with itself, so the
"Expected at most" throw is dead code. -/
def parseArgsArray (argsArray : List Arg) (argv : MinimistArgv) (env : PromptEnv) :
    Except CLIErr (List Value) :=
  let givenArgs := argv.pos
  if argsArray.length < argsArray.length then
    .error (.expectedAtMost argsArray.length givenArgs)
  else
    parseArgsLoop argsArray 0 givenArgs env

/-- The push loop of `parseRest`, with `Rest arg ${i + 1}` display names. -/
def parseRestLoop (restType : Arg) (givenArgs : List Value) (i : Nat) :
    Except CLIErr (List Value) :=
  match givenArgs with
  | [] => .ok []
  | v :: rest =>
    match tryParseValue ("Rest arg " ++ natRepr (i + 1)) restType.toFlag v with
    | .error e => .error e
    | .ok r =>
      match parseRestLoop restType rest (i + 1) with
      | .error e => .error e
      | .ok rs => .ok (r :: rs)

/-- The source's `parseRest(restType, givenArgs)`: an empty remainder is
returned as-is with no validation; otherwise each remaining token is parsed
and validated independently (no defaulting, no prompting). -/
def parseRest (restType : Arg) (givenArgs : List Value) : Except CLIErr (List Value) :=
  if givenArgs.length = 0 then .ok givenArgs
  else parseRestLoop restType givenArgs 0

/-! ### Commands and dispatch -/

/-- The source's `FlagsCommand<Flags>` (the handler itself is an external
computation; invoking it is recorded in the dispatch `Outcome`). -/
structure FlagsCommand where
  description : String
  flags : List (String × Flag)

/-- The source's `ArgsCommand<Flags, Args, Rest>`. -/
structure ArgsCommand where
  description : String
  flags : List (String × Flag)
  args : List Arg
  rest : Arg

/-- The source's `Command` union, discriminated (as the source does) by the
presence of the `args`/`rest` keys. -/
inductive Command where
  | flagsCommand (c : FlagsCommand)
  | argsCommand (c : ArgsCommand)

/-- The flag declarations of either command shape (`command.flags` in the
source). -/
def Command.flags : Command → List (String × Flag)
  | .flagsCommand c => c.flags
  | .argsCommand c => c.flags

/-- The effectful skeleton of the source's `getCommandUsage`: text layout
(chalk, table) is external rendering, but the Default column of the flags
table is produced by `flag.default ? inspect(await flag.default()) : "Prompts."`,
which invokes each declared defaultable flag's `default` producer in
declaration order — so a throwing producer escapes from a help request. The
produced values feed only the rendered text. -/
def getCommandUsageDefaults : List (String × Flag) → Except String Unit
  | [] => .ok ()
  | (_, flag) :: rest =>
    match flag.default with
    | some d =>
      match d () with
      | .error msg => .error msg
      | .ok _ => getCommandUsageDefaults rest
    | none => getCommandUsageDefaults rest

/-- What a dispatch run did: emitted help text for a command, invoked a
handler with resolved values, or emitted the full command list. Help and
command-list text layout (chalk/table) are external collaborators; of help
rendering, the fact of emitting it and its invocation of the defaultable
flags' `default` producers are modelled. -/
inductive Outcome where
  | helpShown (name : String)
  | ranFlags (flags : List (String × Value))
  | ranArgs (flags : List (String × Value)) (args : List Value) (rest : List Value)
  | listShown (name : String)
  deriving DecidableEq, Repr

/-- The source's `runCommand(name, command, argv)`: a help flag short-circuits
to usage output (whose rendering invokes each defaultable flag's `default`
producer, propagating a thrown error); an `ArgsCommand` resolves declared
args, then the remaining tokens as rest, then flags, then runs the handler; a
`FlagsCommand` first rejects any positional token, then resolves flags and
runs the handler. -/
def runCommand (name : String) (command : Command) (argv : MinimistArgv) (env : PromptEnv) :
    Except RunErr Outcome :=
  if wantsHelp argv then
    match getCommandUsageDefaults command.flags with
    | .error msg => .error (.thrown msg)
    | .ok _ => .ok (.helpShown name)
  else
    match command with
    | .argsCommand c =>
      match parseArgsArray c.args argv env with
      | .error e => .error (.cli e)
      | .ok args =>
        match parseRest c.rest (argv.pos.drop args.length) with
        | .error e => .error (.cli e)
        | .ok rest =>
          match parseFlagMap c.flags argv env with
          | .error e => .error e
          | .ok flags => .ok (.ranArgs flags args rest)
    | .flagsCommand c =>
      if argv.pos.length > 0 then
        .error (.cli (.expectedZeroArgs argv.pos))
      else
        match parseFlagMap c.flags argv env with
        | .error e => .error e
        | .ok flags => .ok (.ranFlags flags)

/-- The source's `loadCommand(commandName, loaders)`; loaders are modelled as
already-loaded commands (the lazy import is an external effect). -/
def loadCommand (commandName : String) (loaders : List (String × Command)) :
    Except CLIErr Command :=
  match loaders.find? (fun p => p.1 == commandName) with
  | some p => .ok p.2
  | none => .error (.commandNotFound commandName)

/-- The source's `runLoaders(name, commandLoaders, argv)`. The help branch
evaluates `args[0].toString()` before checking whether a second token exists;
when `args` is empty, `args[0]` is `undefined` and the method call throws a
TypeError, modelled as `RunErr.typeError`. -/
def runLoaders (name : String) (commandLoaders : List (String × Command))
    (argv : MinimistArgv) (env : PromptEnv) : Except RunErr Outcome :=
  let commandName := argv.pos.headD .undefined
  let args := argv.pos.tail
  let childArgv : MinimistArgv := { argv with pos := args }
  if commandName = Value.undefined ∨ commandName = Value.vStr "help"
      ∨ (wantsHelp argv = true ∧ truthy commandName = false) then
    match jsToString (args.headD .undefined) with
    | .error _ => .error .typeError
    | .ok wantHelpAbout =>
      if wantHelpAbout ≠ "" then
        match loadCommand wantHelpAbout commandLoaders with
        | .error e => .error (.cli e)
        | .ok command =>
          runCommand (name ++ " " ++ wantHelpAbout) command
            { pos := [], flags := [("help", .vBool true)] } env
      else
        .ok (.listShown name)
  else
    match jsToString commandName with
    | .error _ => .error .typeError
    | .ok s =>
      match loadCommand s commandLoaders with
      | .error e => .error (.cli e)
      | .ok command => runCommand (name ++ " " ++ s) command childArgv env

/-! ### Unparsing and the raw-arguments tokenizer -/

/-- JS `flags[key]` lookup on a resolved-values object. -/
def lookupVal (l : List (String × Value)) (k : String) : Value :=
  match l.find? (fun p => p.1 == k) with
  | some p => p.2
  | none => .undefined

/-- The source's `unparseFlags(flagMap, flags)`: for each declared key, a
`true` value becomes a bare `--key` token, any other truthy value becomes
`--key=JSON.stringify(value)`, and falsy values are skipped. -/
def unparseFlags (flagMap : List (String × Flag)) (flags : List (String × Value)) :
    List String :=
  (flagMap.map Prod.fst).foldl
    (fun results key =>
      if lookupVal flags key = Value.vBool true then results ++ ["--" ++ key]
      else if truthy (lookupVal flags key) then
        results ++ ["--" ++ key ++ "=" ++ jsonStringify (lookupVal flags key)]
      else results)
    []

/-- Recognize one `--name` / `--name=value` token and produce its flag-map
entry, part of the spec-modelled tokenizer below. -/
def parseFlagToken (t : String) : Option (String × Value) :=
  match t.data with
  | c0 :: c1 :: body =>
    if c0 = '-' ∧ c1 = '-' then
      match splitEq body with
      | some p =>
        some (String.mk p.1, defaultParser (.vStr (String.mk p.2)))
      | none => some (String.mk body, .vBool true)
    else none
  | _ => none

/-- Modelled from the spec: the raw command-line tokenizer (minimist) is an
external collaborator, not part of src. Per the spec's raw-arguments input
contract, every recognized `--name`/`--name=value` pair becomes a top-level
key and boolean flags given without `=value` are `true`, with non-flag tokens
collected in order under the positional key. Scalar coercion of the `=value`
text follows the source's own `defaultParser`, which the source states is an
estimate of minimist's behavior. -/
def tokenize (tokens : List String) : MinimistArgv :=
  { pos := (tokens.filter (fun t => (parseFlagToken t).isNone)).map Value.vStr
    flags := tokens.filterMap parseFlagToken }

/-! ### Spec-side restatements (for refinement-style claims) -/

/-- Restatement of the spec's positional-resolution sentence: declared
positional specs are resolved strictly in declared order by index against the
raw positional token at that index, with parse-then-validate exactly as for a
given flag value. To be compared with `parseArgsArray`. -/
def specArgsByIndex (args : List Arg) (i : Nat) (pos : List Value) :
    Except CLIErr (List Value) :=
  match args with
  | [] => .ok []
  | a :: rest =>
    match tryParseValue (argDisplayName i a) a.toFlag (pos.getD i .undefined) with
    | .error e => .error e
    | .ok v =>
      match specArgsByIndex rest (i + 1) pos with
      | .error e => .error e
      | .ok vs => .ok (v :: vs)

/-! ### Supporting lemmas: decimal digits round-trip -/

theorem digitChar_isDigit : ∀ d, d < 10 → (Char.ofNat (48 + d)).isDigit = true := by decide

theorem digitVal_digitChar : ∀ d, d < 10 → digitVal (Char.ofNat (48 + d)) = d := by decide

theorem natDigits_all (n : Nat) : (natDigits n).all Char.isDigit = true := by
  induction n using Nat.strong_induction_on with
  | _ n ih =>
    match n with
    | 0 => simp [natDigits, natDigitsAux]
    | m + 1 =>
      rw [natDigits_succ, List.all_append]
      have h1 := ih ((m + 1) / 10) (Nat.div_lt_self (Nat.succ_pos m) (by omega))
      have h2 : ([Char.ofNat (48 + (m + 1) % 10)]).all Char.isDigit = true := by
        simp [digitChar_isDigit ((m + 1) % 10) (Nat.mod_lt _ (by omega))]
      rw [h1, h2]
      rfl

theorem natDigits_ne (n : Nat) (h : 0 < n) : natDigits n ≠ [] := by
  match n, h with
  | m + 1, _ => rw [natDigits_succ]; simp

theorem parseNatAcc_append (xs ys : List Char) (acc : Nat) :
    parseNatAcc (xs ++ ys) acc = parseNatAcc ys (parseNatAcc xs acc) := by
  induction xs generalizing acc with
  | nil => rfl
  | cons c rest ih => simp [parseNatAcc, ih]

theorem parseNatAcc_natDigits (n : Nat) : ∀ acc,
    parseNatAcc (natDigits n) acc = acc * 10 ^ (natDigits n).length + n := by
  induction n using Nat.strong_induction_on with
  | _ n ih =>
    intro acc
    match n with
    | 0 => simp [natDigits, natDigitsAux, parseNatAcc]
    | m + 1 =>
      rw [natDigits_succ, parseNatAcc_append,
        ih ((m + 1) / 10) (Nat.div_lt_self (Nat.succ_pos m) (by omega)) acc]
      show parseNatAcc _ _ = _
      rw [parseNatAcc, parseNatAcc, digitVal_digitChar _ (Nat.mod_lt _ (by omega))]
      rw [List.length_append, List.length_singleton, pow_succ]
      have hdm : 10 * ((m + 1) / 10) + (m + 1) % 10 = m + 1 := Nat.div_add_mod (m + 1) 10
      set L := (natDigits ((m + 1) / 10)).length
      set d := (m + 1) / 10
      set r := (m + 1) % 10
      calc (acc * 10 ^ L + d) * 10 + r = acc * (10 ^ L * 10) + (10 * d + r) := by ring
        _ = acc * (10 ^ L * 10) + (m + 1) := by rw [hdm]

theorem natRepr_data_all (n : Nat) : ((natRepr n).data).all Char.isDigit = true := by
  by_cases h : n = 0
  · subst h; decide
  · rw [natRepr, if_neg h]; exact natDigits_all n

theorem natRepr_data_ne (n : Nat) : (natRepr n).data ≠ [] := by
  by_cases h : n = 0
  · subst h; decide
  · rw [natRepr, if_neg h]; exact natDigits_ne n (Nat.pos_of_ne_zero h)

theorem parseDigits_natRepr (n : Nat) : parseDigits (natRepr n).data = some n := by
  by_cases h : n = 0
  · subst h; decide
  · rw [natRepr, if_neg h]
    show parseDigits (natDigits n) = some n
    rw [parseDigits]
    have hne : natDigits n ≠ [] := natDigits_ne n (Nat.pos_of_ne_zero h)
    rw [natDigits_all n]
    have hemp : (natDigits n).isEmpty = false := by
      simpa [List.isEmpty_iff] using hne
    rw [hemp]
    have := parseNatAcc_natDigits n 0
    simpa using this

theorem isDigit_ne {c : Char} (h : c.isDigit = true) :
    c ≠ '-' ∧ c ≠ '+' ∧ c ≠ '.' ∧ c ≠ 'x' ∧ c ≠ 'X' := by
  refine ⟨?_, ?_, ?_, ?_, ?_⟩ <;> (rintro rfl; exact absurd h (by decide))

theorem stripSign_digits {l : List Char} (hall : l.all Char.isDigit = true) (hne : l ≠ []) :
    stripSign l = l := by
  match l, hne with
  | c :: rest, _ =>
    have hc : c.isDigit = true := by
      have := List.all_eq_true.mp hall c (by simp)
      simpa using this
    rw [stripSign]
    have h1 : (c == '-') = false := beq_eq_false_iff_ne.mpr (isDigit_ne hc).1
    have h2 : (c == '+') = false := beq_eq_false_iff_ne.mpr (isDigit_ne hc).2.1
    simp [h1, h2]

theorem dropWhile_all_nil {p : Char → Bool} {l : List Char} (h : l.all p = true) :
    l.dropWhile p = [] :=
  List.dropWhile_eq_nil_iff.mpr (by simpa [List.all_eq_true] using h)

theorem afterMantissa_digits {l : List Char} (hall : l.all Char.isDigit = true) (hne : l ≠ []) :
    afterMantissa l = some [] := by
  match l, hne with
  | c :: rest, _ =>
    have hc : c.isDigit = true := by
      have := List.all_eq_true.mp hall c (by simp)
      simpa using this
    rw [afterMantissa]
    have h1 : (c == '.') = false := beq_eq_false_iff_ne.mpr (isDigit_ne hc).2.2.1
    rw [h1]
    simp only [Bool.false_eq_true, if_false, hc, if_true]
    rw [dropWhile_all_nil hall]
    rfl

theorem matchDecLit_digits {l : List Char} (hall : l.all Char.isDigit = true) (hne : l ≠ []) :
    matchDecLit l = true := by
  rw [matchDecLit, stripSign_digits hall hne, afterMantissa_digits hall hne]
  rfl

theorem matchDecLit_neg_digits {l : List Char} (hall : l.all Char.isDigit = true)
    (hne : l ≠ []) : matchDecLit ('-' :: l) = true := by
  have hs : stripSign ('-' :: l) = l := by simp [stripSign]
  rw [matchDecLit, hs, afterMantissa_digits hall hne]
  rfl

theorem isNumber_intRepr (k : Int) : isNumber (.vStr (intRepr k)) = true := by
  show (matchHexLit (intRepr k).data || matchDecLit (intRepr k).data) = true
  cases k with
  | ofNat n =>
    rw [show intRepr (Int.ofNat n) = natRepr n from rfl]
    rw [matchDecLit_digits (natRepr_data_all n) (natRepr_data_ne n)]
    simp
  | negSucc m =>
    have hdata : (intRepr (Int.negSucc m)).data = '-' :: (natRepr (m + 1)).data := by
      show ("-" ++ natRepr (m + 1)).data = _
      rw [String.data_append]
      rfl
    rw [hdata, matchDecLit_neg_digits (natRepr_data_all (m + 1)) (natRepr_data_ne (m + 1))]
    simp

theorem jsToNumber_digits {l : List Char} (hall : l.all Char.isDigit = true) (hne : l ≠ []) :
    jsToNumber l = (parseDigits l).map Int.ofNat := by
  match l, hne with
  | c :: rest, _ =>
    have hc : c.isDigit = true := by
      have := List.all_eq_true.mp hall c (by simp)
      simpa using this
    rw [jsToNumber]
    rw [if_neg ?hex]
    case hex =>
      rintro ⟨hlen, h0, hx⟩
      match rest, hlen with
      | c1 :: rest1, _ =>
        have hc1 : c1.isDigit = true := by
          have := List.all_eq_true.mp hall c1 (by simp)
          simpa using this
        rcases hx with hx | hx
        · exact (isDigit_ne hc1).2.2.2.1 (by simpa using hx)
        · exact (isDigit_ne hc1).2.2.2.2 (by simpa using hx)
    rw [if_neg (by simpa using (isDigit_ne hc).1), if_neg (by simpa using (isDigit_ne hc).2.1)]

theorem jsToNumber_natRepr (n : Nat) : jsToNumber (natRepr n).data = some (Int.ofNat n) := by
  rw [jsToNumber_digits (natRepr_data_all n) (natRepr_data_ne n), parseDigits_natRepr]
  rfl

theorem jsToNumber_negRepr (m : Nat) :
    jsToNumber ('-' :: (natRepr (m + 1)).data) = some (Int.negSucc m) := by
  rw [jsToNumber]
  rw [if_neg ?hex]
  case hex => rintro ⟨-, h0, -⟩; simp at h0
  rw [if_pos (by simp)]
  have ht : ('-' :: (natRepr (m + 1)).data).tail = (natRepr (m + 1)).data := rfl
  rw [ht, parseDigits_natRepr]
  show some (-(Int.ofNat (m + 1))) = some (Int.negSucc m)
  rw [Int.negSucc_eq]
  congr 1

theorem defaultParser_intRepr (k : Int) : defaultParser (.vStr (intRepr k)) = .vNum k := by
  have h1 : isNumber (.vStr (intRepr k)) = true := isNumber_intRepr k
  have h2 : defaultParser (.vStr (intRepr k)) =
      match jsToNumber (intRepr k).data with
      | some n => Value.vNum n
      | none => Value.vStr (intRepr k) := by
    rw [defaultParser]
    · rw [if_pos h1]; rfl
    · rintro n ⟨⟩
  rw [h2]
  cases k with
  | ofNat n =>
    rw [show (intRepr (Int.ofNat n)).data = (natRepr n).data from rfl, jsToNumber_natRepr]
  | negSucc m =>
    have hdata : (intRepr (Int.negSucc m)).data = '-' :: (natRepr (m + 1)).data := by
      show ("-" ++ natRepr (m + 1)).data = _
      rw [String.data_append]
      rfl
    rw [hdata, jsToNumber_negRepr]

/-! ### Supporting lemmas: error shapes of the resolution steps -/

theorem tryParseValue_error_shape {name : String} {flag : Flag} {value : Value} {e : CLIErr}
    (h : tryParseValue name flag value = .error e) :
    (∃ m, e = CLIErr.parseError name value m) ∨ (∃ v, e = CLIErr.invalidValue name v) := by
  unfold tryParseValue at h
  split at h
  next e' heq =>
    cases h
    match hp : flag.parse with
    | none => simp only [hp] at heq; cases heq
    | some p =>
      simp only [hp] at heq
      match hr : p value with
      | .ok v => simp only [hr] at heq; cases heq
      | .error m => simp only [hr] at heq; cases heq; exact .inl ⟨m, rfl⟩
  next v heq =>
    split at h
    · cases h
    · cases h; exact .inr ⟨v, rfl⟩

theorem tryPrompt_error_shape {name : String} {flag : Flag} {env : PromptEnv} {e : CLIErr}
    (h : tryPrompt name flag env = .error e) :
    e = CLIErr.cannotPrompt name ∨ e = CLIErr.promptInvalid name (promptedValue flag env) := by
  unfold tryPrompt at h
  split at h
  · cases h; exact .inl rfl
  · split at h
    · cases h
    · cases h; exact .inr rfl

theorem parseArg_error_shape {i : Nat} {a : Arg} {pos : List Value} {env : PromptEnv}
    {e : CLIErr} (h : parseArg i a pos env = .error e) :
    (∃ m, e = CLIErr.parseError (argDisplayName i a) (pos.getD i .undefined) m)
    ∨ (∃ v, e = CLIErr.invalidValue (argDisplayName i a) v)
    ∨ e = CLIErr.cannotPrompt (argDisplayName i a)
    ∨ e = CLIErr.promptInvalid (argDisplayName i a) (promptedValue a.toFlag env) := by
  unfold parseArg at h
  split at h
  · rcases tryParseValue_error_shape h with h1 | h1
    · exact .inl h1
    · exact .inr (.inl h1)
  · rcases tryPrompt_error_shape h with h1 | h1
    · exact .inr (.inr (.inl h1))
    · exact .inr (.inr (.inr h1))

theorem parseArgsLoop_no_atMost (args : List Arg) (i : Nat) (pos : List Value)
    (env : PromptEnv) (n : Nat) (given : List Value) :
    parseArgsLoop args i pos env ≠ .error (.expectedAtMost n given) := by
  induction args generalizing i with
  | nil => intro h; cases h
  | cons a rest ih =>
    intro h
    rw [parseArgsLoop] at h
    split at h
    next e heq =>
      cases h
      rcases parseArg_error_shape heq with ⟨m, h1⟩ | ⟨v, h1⟩ | h1 | h1 <;> cases h1
    next v heq =>
      split at h
      next e heq2 => cases h; exact ih (i + 1) heq2
      next => cases h

/-! ### Supporting lemmas: flag-map resolution order -/

theorem parseFlag_env_of_default {name : String} {flag : Flag}
    (h : flag.default.isSome = true) (argv : MinimistArgv) (env env' : PromptEnv) :
    parseFlag name flag argv env = parseFlag name flag argv env' := by
  rw [parseFlag, parseFlag]
  split
  · rfl
  · match hd : flag.default with
    | some d => rfl
    | none => rw [hd] at h; cases h

theorem parseFlags_env_defaultable (flagSet : List (String × Flag)) (names : List String)
    (h : ∀ n ∈ names, (findFlag flagSet n).default.isSome = true)
    (argv : MinimistArgv) (env env' : PromptEnv) (acc : List (String × Value)) :
    parseFlags flagSet names argv env acc = parseFlags flagSet names argv env' acc := by
  induction names generalizing acc with
  | nil => rfl
  | cons n rest ih =>
    rw [parseFlags, parseFlags]
    rw [parseFlag_env_of_default (h n (by simp)) argv env env']
    split
    · rfl
    · exact ih (fun m hm => h m (by simp [hm])) _

theorem parseFlags_append (flagSet : List (String × Flag)) (l1 l2 : List String)
    (argv : MinimistArgv) (env : PromptEnv) (acc : List (String × Value)) :
    parseFlags flagSet (l1 ++ l2) argv env acc =
      match parseFlags flagSet l1 argv env acc with
      | .error e => .error e
      | .ok acc' => parseFlags flagSet l2 argv env acc' := by
  induction l1 generalizing acc with
  | nil => rfl
  | cons n rest ih =>
    rw [List.cons_append, parseFlags, parseFlags]
    split
    · rfl
    · exact ih _

theorem mem_defaultableFlagNames {flagSet : List (String × Flag)} {n : String}
    (h : n ∈ defaultableFlagNames flagSet) : (findFlag flagSet n).default.isSome = true := by
  have := List.mem_filter.mp h
  simpa using this.2

/-! ### Claim theorems -/

/-- C10: for every declared positional-spec array and every raw positional
token list — including lists with strictly more tokens than declared specs —
`parseArgsArray` never raises its "Expected at most ... args" error: the
source guards it with `argsArray.length < argsArray.length`, so the branch is
unreachable for all inputs and surplus positional tokens never make the
declared-args resolver itself fail. -/
theorem c10_expected_at_most_unreachable (argsArray : List Arg) (argv : MinimistArgv)
    (env : PromptEnv) (n : Nat) (given : List Value) :
    parseArgsArray argsArray argv env ≠ .error (.expectedAtMost n given) := by
  show (if argsArray.length < argsArray.length then
          Except.error (CLIErr.expectedAtMost argsArray.length argv.pos)
        else parseArgsLoop argsArray 0 argv.pos env) ≠ _
  rw [if_neg (lt_irrefl _)]
  exact parseArgsLoop_no_atMost argsArray 0 argv.pos env n given

/-- Witness for C10 at a concrete input with more tokens than declared specs. -/
theorem c10_witness :
    parseArgsArray [] { pos := [Value.vStr "x"], flags := [] }
      { interactive := false, answer := Value.undefined } ≠ .error (.expectedAtMost 0 []) :=
  c10_expected_at_most_unreachable [] { pos := [Value.vStr "x"], flags := [] }
    { interactive := false, answer := Value.undefined } 0 []

/-- C3: in `parseFlagMap`, every flag with a `default` is resolved strictly
before any flag without one: the defaultable phase consults the prompting
environment for nothing (so prompting cannot begin during it), the processing
order is exactly the defaultable names (declaration order) followed by the
non-defaultable names (declaration order), and a failure in the defaultable
phase is the overall result for every prompting environment, so a flag
without a default is never resolved before every defaultable flag has been
attempted. -/
theorem c3_defaults_resolved_first (flagSet : List (String × Flag)) (argv : MinimistArgv)
    (env env' : PromptEnv) :
    (parseFlags flagSet (defaultableFlagNames flagSet) argv env []
      = parseFlags flagSet (defaultableFlagNames flagSet) argv env' [])
    ∧ (unknownFlagsOf flagSet argv = [] →
        parseFlagMap flagSet argv env
          = parseFlags flagSet
              (defaultableFlagNames flagSet ++ nonDefaultableFlagNames flagSet) argv env [])
    ∧ (unknownFlagsOf flagSet argv = [] →
        ∀ e, parseFlags flagSet (defaultableFlagNames flagSet) argv env [] = .error e →
          parseFlagMap flagSet argv env' = .error e) := by
  refine ⟨parseFlags_env_defaultable _ _ (fun n hn => mem_defaultableFlagNames hn) _ _ _ _,
    ?_, ?_⟩
  · intro hu
    rw [parseFlagMap, hu]
    rw [if_neg (by simp)]
    rw [parseFlags_append]
  · intro hu e he
    rw [parseFlagMap, hu]
    rw [if_neg (by simp)]
    rw [parseFlags_env_defaultable flagSet _ (fun n hn => mem_defaultableFlagNames hn)
      argv env' env, he]

/-- A flag that accepts only strings and must prompt when missing. -/
def flagNeedsPromptW : Flag :=
  { description := "a", validate := fun v => match v with | .vStr _ => true | _ => false
    default := none, prompt := none, parse := none }

/-- A flag whose default producer throws synchronously. -/
def flagThrowingDefaultW : Flag :=
  { description := "b", validate := fun v => match v with | .vBool _ => true | _ => false
    default := some (fun _ => .error "boom"), prompt := none, parse := none }

/-- Witness for C3, the spec's own scenario: two flags, both missing, the one
declared FIRST has no default, the one declared second has a default whose
producer throws; in a non-interactive environment the overall result is the
thrown default error, not the first flag's cannot-prompt error, because
flags with defaults are attempted strictly before flags without. -/
theorem c3_witness :
    parseFlagMap [("a", flagNeedsPromptW), ("b", flagThrowingDefaultW)]
      { pos := [], flags := [] } { interactive := false, answer := Value.undefined }
      = .error (.thrown "boom") :=
  (c3_defaults_resolved_first [("a", flagNeedsPromptW), ("b", flagThrowingDefaultW)]
    { pos := [], flags := [] } { interactive := true, answer := Value.undefined }
    { interactive := false, answer := Value.undefined }).2.2 rfl (.thrown "boom") rfl

/-- C2: `parseFlag` resolves in a fixed order. (1) A raw value present under
the flag's name is parsed and validated — the only path that consults
`parse` — with a throwing parser becoming a classified parse error carrying
the raw value and a validation failure becoming an invalid-value error
carrying the post-parse value, and neither the default nor the prompt (nor
the prompting environment) is ever consulted. (2) Otherwise a present
`default` produces the value with no prompting: a valid produced value is
returned, an invalid one is the author's-bug contract-violation error.
(3) Only with no raw value and no default is the prompt path entered. -/
theorem c2_parseFlag_precedence (name : String) (flag : Flag) (argv : MinimistArgv)
    (env : PromptEnv) :
    (argv.hasKey name = true →
      ∀ (d : Option (Unit → Except String Value)) (pr : Option Value) (env' : PromptEnv),
        parseFlag name { flag with default := d, prompt := pr } argv env'
          = toRun (tryParseValue ("--" ++ name) flag (argv.get name)))
    ∧ (argv.hasKey name = true → ∀ p msg, flag.parse = some p →
        p (argv.get name) = .error msg →
        parseFlag name flag argv env
          = .error (.cli (.parseError ("--" ++ name) (argv.get name) msg))
        ∧ (CLIErr.parseError ("--" ++ name) (argv.get name) msg).details
            = .value (argv.get name))
    ∧ (argv.hasKey name = true → ∀ p v, flag.parse = some p → p (argv.get name) = .ok v →
        flag.validate v = false →
        parseFlag name flag argv env = .error (.cli (.invalidValue ("--" ++ name) v))
        ∧ (CLIErr.invalidValue ("--" ++ name) v).details = .value v)
    ∧ (argv.hasKey name = false → ∀ d, flag.default = some d →
        (∀ env', parseFlag name flag argv env' = parseFlag name flag argv env)
        ∧ (∀ v, d () = .ok v → flag.validate v = true → parseFlag name flag argv env = .ok v)
        ∧ (∀ v, d () = .ok v → flag.validate v = false →
            parseFlag name flag argv env
              = .error (.cli (.invalidDefault ("--" ++ name) v))))
    ∧ (argv.hasKey name = false → flag.default = none →
        parseFlag name flag argv env = toRun (tryPrompt ("--" ++ name) flag env)) := by
  refine ⟨?_, ?_, ?_, ?_, ?_⟩
  · intro h d pr env'
    rw [parseFlag, if_pos h]
    rfl
  · intro h p msg hp hr
    refine ⟨?_, rfl⟩
    rw [parseFlag, if_pos h]
    unfold tryParseValue
    simp only [hp, hr]
    rfl
  · intro h p v hp hr hv
    refine ⟨?_, rfl⟩
    rw [parseFlag, if_pos h]
    unfold tryParseValue
    simp only [hp, hr, hv]
    rfl
  · intro h d hd
    refine ⟨?_, ?_, ?_⟩
    · intro env'
      rw [parseFlag, parseFlag, if_neg (by simp [h]), if_neg (by simp [h])]
      simp only [hd]
    · intro v hv hval
      rw [parseFlag, if_neg (by simp [h])]
      simp only [hd, hv, hval, if_true]
    · intro v hv hval
      rw [parseFlag, if_neg (by simp [h])]
      simp only [hd, hv, hval]
      rfl
  · intro h hd
    rw [parseFlag, if_neg (by simp [h])]
    simp only [hd]

/-- A flag with a throwing parser, a default and a custom prompt, accepting
only numbers: a given raw value must reach only the parser. -/
def flagParserC2W : Flag :=
  { description := "p", validate := fun v => match v with | .vNum _ => true | _ => false
    default := some (fun _ => .ok (.vNum 7)), prompt := some (.vNum 9)
    parse := some (fun _ => .error "nope") }

/-- A flag whose default produces a valid number. -/
def flagDefaultOkC2W : Flag :=
  { description := "d", validate := fun v => match v with | .vNum _ => true | _ => false
    default := some (fun _ => .ok (.vNum 7)), prompt := none, parse := none }

/-- A flag whose default produces a value its own validator rejects. -/
def flagDefaultBadC2W : Flag :=
  { description := "e", validate := fun v => match v with | .vNum _ => true | _ => false
    default := some (fun _ => .ok (.vStr "bad")), prompt := none, parse := none }

/-- A flag with no default and no custom prompt. -/
def flagPromptC2W : Flag :=
  { description := "n", validate := fun v => match v with | .vStr _ => true | _ => false
    default := none, prompt := none, parse := none }

/-- Witness for C2: a given raw value with a throwing parser beats a present
default (classified parse error carrying the raw value); a missing value with
a valid default resolves with no prompting even when non-interactive; an
invalid default is the contract-violation error; no raw value and no default
enters the prompt path. -/
theorem c2_witness :
    parseFlag "x" flagParserC2W { pos := [], flags := [("x", .vStr "raw")] }
        { interactive := false, answer := .undefined }
      = .error (.cli (.parseError "--x" (.vStr "raw") "nope"))
    ∧ parseFlag "d" flagDefaultOkC2W { pos := [], flags := [] }
        { interactive := false, answer := .undefined } = .ok (.vNum 7)
    ∧ parseFlag "e" flagDefaultBadC2W { pos := [], flags := [] }
        { interactive := false, answer := .undefined }
      = .error (.cli (.invalidDefault "--e" (.vStr "bad")))
    ∧ parseFlag "n" flagPromptC2W { pos := [], flags := [] }
        { interactive := false, answer := .undefined }
      = .error (.cli (.cannotPrompt "--n")) := by
  refine ⟨?_, ?_, ?_, ?_⟩
  · exact ((c2_parseFlag_precedence "x" flagParserC2W
      { pos := [], flags := [("x", .vStr "raw")] } { interactive := false, answer := .undefined }).2.1
      (by decide) _ "nope" rfl rfl).1
  · exact ((c2_parseFlag_precedence "d" flagDefaultOkC2W { pos := [], flags := [] }
      { interactive := false, answer := .undefined }).2.2.2.1 (by decide) _ rfl).2.1
      (.vNum 7) rfl rfl
  · exact ((c2_parseFlag_precedence "e" flagDefaultBadC2W { pos := [], flags := [] }
      { interactive := false, answer := .undefined }).2.2.2.1 (by decide) _ rfl).2.2
      (.vStr "bad") rfl rfl
  · have h := (c2_parseFlag_precedence "n" flagPromptC2W { pos := [], flags := [] }
      { interactive := false, answer := .undefined }).2.2.2.2 (by decide) rfl
    rw [h]
    rfl

/-! ### Supporting lemmas: join substring containment -/

theorem joinSep_mem_sub (sep : String) {x : String} {l : List String} (h : x ∈ l) :
    ∃ pre post : List Char, (joinSep sep l).data = pre ++ x.data ++ post := by
  induction l with
  | nil => cases h
  | cons a rest ih =>
    rcases List.mem_cons.mp h with rfl | h2
    · cases rest with
      | nil => exact ⟨[], [], by simp [joinSep]⟩
      | cons b rest2 =>
        refine ⟨[], (sep ++ joinSep sep (b :: rest2)).data, ?_⟩
        rw [joinSep]
        simp [String.data_append]
    · cases rest with
      | nil => cases h2
      | cons b rest2 =>
        rcases ih h2 with ⟨pre, post, hp⟩
        refine ⟨a.data ++ sep.data ++ pre, post, ?_⟩
        rw [joinSep]
        simp [String.data_append, hp]

/-- C4: `parseFlagMap` first collects the given flag names excluding exactly
the reserved keys `_` and `$0`; when any given name is undeclared it fails —
identically for every prompting environment, before resolving any individual
flag — with a single unknown-flag error whose details and message list every
undeclared name, not just the first. -/
theorem c4_unknown_flags (flagSet : List (String × Flag)) (argv : MinimistArgv)
    (env env' : PromptEnv) :
    (∀ n, n ∈ unknownFlagsOf flagSet argv ↔
      (n ∈ argv.flags.map Prod.fst ∧ n ≠ "_" ∧ n ≠ "$0" ∧ n ∉ flagSet.map Prod.fst))
    ∧ (unknownFlagsOf flagSet argv ≠ [] →
        parseFlagMap flagSet argv env
          = .error (.cli (.unknownFlags (unknownFlagsOf flagSet argv)))
        ∧ parseFlagMap flagSet argv env = parseFlagMap flagSet argv env'
        ∧ (CLIErr.unknownFlags (unknownFlagsOf flagSet argv)).details
            = .names (unknownFlagsOf flagSet argv)
        ∧ ∀ n ∈ unknownFlagsOf flagSet argv, ∃ pre post,
            (CLIErr.unknownFlags (unknownFlagsOf flagSet argv)).message.data
              = pre ++ ("--" ++ n).data ++ post) := by
  constructor
  · intro n
    simp only [unknownFlagsOf, givenFlagNames, List.mem_filter, Bool.and_eq_true,
      Bool.not_eq_true', beq_eq_false_iff_ne, ne_eq]
    constructor
    · rintro ⟨⟨hmem, h1, h2⟩, h3⟩
      refine ⟨hmem, h1, h2, ?_⟩
      intro hc
      simp [List.contains, List.elem_eq_mem, hc] at h3
    · rintro ⟨hmem, h1, h2, h3⟩
      refine ⟨⟨hmem, h1, h2⟩, ?_⟩
      simp [List.contains, List.elem_eq_mem, h3]
  · intro hne
    have herr : ∀ e0 : PromptEnv, parseFlagMap flagSet argv e0
        = .error (.cli (.unknownFlags (unknownFlagsOf flagSet argv))) := by
      intro e0
      rw [parseFlagMap, if_pos (by simpa [List.length_pos] using hne)]
    refine ⟨herr env, (herr env).trans (herr env').symm, rfl, ?_⟩
    intro n hn
    have hmem : ("--" ++ n) ∈ (unknownFlagsOf flagSet argv).map (fun m => "--" ++ m) :=
      List.mem_map_of_mem _ hn
    rcases joinSep_mem_sub ", " hmem with ⟨pre, post, hp⟩
    refine ⟨("Unknown flags given: ").data ++ pre, post, ?_⟩
    show (("Unknown flags given: ")
        ++ joinSep ", " ((unknownFlagsOf flagSet argv).map (fun m => "--" ++ m))).data = _
    rw [String.data_append, hp]
    simp

/-- A flag map declaring only `name`, for the C4 witness. -/
def c4FlagW : Flag :=
  { description := "n", validate := fun v => match v with | .vStr _ => true | _ => false
    default := none, prompt := none, parse := none }

/-- Witness for C4, the spec's own example: raw arguments
`{name: "x", extra1: 1, extra2: 2, _: []}` against a spec declaring only
`name` yield one unknown-flag error listing both `extra1` and `extra2`. -/
theorem c4_witness :
    parseFlagMap [("name", c4FlagW)]
      { pos := [], flags := [("name", .vStr "x"), ("extra1", .vNum 1), ("extra2", .vNum 2)] }
      { interactive := false, answer := .undefined }
      = .error (.cli (.unknownFlags ["extra1", "extra2"]))
    ∧ (CLIErr.unknownFlags ["extra1", "extra2"]).message
      = "Unknown flags given: --extra1, --extra2" := by
  constructor
  · exact ((c4_unknown_flags [("name", c4FlagW)]
      { pos := [], flags := [("name", .vStr "x"), ("extra1", .vNum 1), ("extra2", .vNum 2)] }
      { interactive := false, answer := .undefined }
      { interactive := false, answer := .undefined }).2 (by decide)).1
  · rfl

/-- A command holding one flag whose default producer throws, exhibiting the
side effect of help rendering. -/
def c5ThrowCmdW : Command :=
  .flagsCommand
    { description := "t"
      flags := [("mode", { description := "m"
                           validate := fun v => match v with | .vBool _ => true | _ => false
                           default := some (fun _ => .error "boom from default")
                           prompt := none, parse := none })] }

/-- Counterexample for C5 as stated: raw arguments containing a truthy `help`
key do not always make `runCommand` render usage and return with no side
effects beyond the help output — rendering the usage's Default column invokes
the flag's `default` producer, and here that producer throws, so the help
request fails with the producer's unclassified error instead of returning
help. -/
theorem c5_counterexample :
    runCommand "demo" c5ThrowCmdW { pos := [], flags := [("help", .vBool true)] }
      { interactive := true, answer := .undefined }
      = .error (.thrown "boom from default") := by decide

/-- C5 (amended): for every command and raw-arguments structure in which any
of the keys `help`, `h` or `?` holds a truthy value, `runCommand` never
invokes the handler and never resolves any flag or positional argument — its
outcome is identical for every prompting environment and for every other flag
or positional token present or missing — and it renders usage and returns;
but usage rendering itself invokes each declared flag's `default` producer
(to display the Default column), so help is shown exactly when those
producers all return, and a throwing producer escapes as the overall
unclassified failure. -/
theorem c5_help_short_circuits (name : String) (command : Command)
    (argv argv' : MinimistArgv) (env env' : PromptEnv)
    (h : truthy (argv.get "help") = true ∨ truthy (argv.get "h") = true
      ∨ truthy (argv.get "?") = true) :
    (getCommandUsageDefaults command.flags = .ok () →
      runCommand name command argv env = .ok (.helpShown name))
    ∧ (∀ msg, getCommandUsageDefaults command.flags = .error msg →
        runCommand name command argv env = .error (.thrown msg))
    ∧ (∀ fl, runCommand name command argv env ≠ .ok (.ranFlags fl))
    ∧ (∀ fl ags rs, runCommand name command argv env ≠ .ok (.ranArgs fl ags rs))
    ∧ (wantsHelp argv' = true →
        runCommand name command argv env = runCommand name command argv' env') := by
  have hw : wantsHelp argv = true := by
    rcases h with h | h | h <;> simp [wantsHelp, h]
  have heq : ∀ (a : MinimistArgv) (e : PromptEnv), wantsHelp a = true →
      runCommand name command a e
        = match getCommandUsageDefaults command.flags with
          | .error msg => .error (.thrown msg)
          | .ok _ => .ok (.helpShown name) := by
    intro a e hwa
    rw [runCommand.eq_def, if_pos hwa]
  refine ⟨?_, ?_, ?_, ?_, ?_⟩
  · intro hok
    rw [heq argv env hw, hok]
  · intro msg herr
    rw [heq argv env hw, herr]
  · intro fl
    rw [heq argv env hw]
    cases getCommandUsageDefaults command.flags <;> simp
  · intro fl ags rs
    rw [heq argv env hw]
    cases getCommandUsageDefaults command.flags <;> simp
  · intro hw2
    rw [heq argv env hw, heq argv' env' hw2]

/-- A command whose flag can never validate and whose raw arguments carry an
unknown flag and a surplus positional token, for the C5 witness. -/
def c5CmdW : Command :=
  .flagsCommand
    { description := "w"
      flags := [("req", { description := "r", validate := fun _ => false
                          default := none, prompt := none, parse := none })] }

/-- Witness for C5: with `help` truthy and no default producers to run,
dispatch yields help even though the positional check, the unknown-flag check
and every flag resolution would fail and the environment cannot prompt; and
with a throwing default producer, the same help request surfaces the
producer's thrown error. -/
theorem c5_witness :
    runCommand "demo" c5CmdW
      { pos := [.vStr "extra"], flags := [("help", .vBool true), ("bogus", .vNum 1)] }
      { interactive := false, answer := .undefined } = .ok (.helpShown "demo")
    ∧ runCommand "demo" c5ThrowCmdW { pos := [], flags := [("h", .vNum 1)] }
      { interactive := false, answer := .undefined }
      = .error (.thrown "boom from default") := by
  constructor
  · exact (c5_help_short_circuits "demo" c5CmdW
      { pos := [.vStr "extra"], flags := [("help", .vBool true), ("bogus", .vNum 1)] }
      { pos := [], flags := [] }
      { interactive := false, answer := .undefined }
      { interactive := false, answer := .undefined } (.inl (by decide))).1 rfl
  · exact (c5_help_short_circuits "demo" c5ThrowCmdW
      { pos := [], flags := [("h", .vNum 1)] } { pos := [], flags := [] }
      { interactive := false, answer := .undefined }
      { interactive := false, answer := .undefined }
      (.inr (.inl (by decide)))).2.1 "boom from default" rfl

/-- C7: whenever a flag or positional-arg value is missing, the prompt path
fails immediately with the "required but cannot prompt" classification when
the process has no interactive terminal; and whenever the value obtained by
prompting (custom prompt resolver or default question) fails the final
validate check, it fails with the distinct "prompting returned invalid value"
classification, which is a different classification from the parse-error and
invalid-value errors used for values given in raw arguments. -/
theorem c7_prompt_path_errors (name : String) (flag : Flag) (arg : Arg) (index : Nat)
    (argv : MinimistArgv) (pos : List Value) (env : PromptEnv) :
    (env.interactive = false → tryPrompt name flag env = .error (.cannotPrompt name))
    ∧ (env.interactive = true → flag.validate (promptedValue flag env) = false →
        tryPrompt name flag env = .error (.promptInvalid name (promptedValue flag env)))
    ∧ (argv.hasKey name = false → flag.default = none → env.interactive = false →
        parseFlag name flag argv env = .error (.cli (.cannotPrompt ("--" ++ name))))
    ∧ (pos.length ≤ index → env.interactive = false →
        parseArg index arg pos env = .error (.cannotPrompt (argDisplayName index arg)))
    ∧ (∀ (n1 n2 : String) (v1 v2 : Value) (m : String),
        CLIErr.promptInvalid n1 v1 ≠ .parseError n2 v2 m
        ∧ CLIErr.promptInvalid n1 v1 ≠ .invalidValue n2 v2
        ∧ CLIErr.cannotPrompt n1 ≠ .parseError n2 v2 m
        ∧ CLIErr.cannotPrompt n1 ≠ .invalidValue n2 v2) := by
  refine ⟨?_, ?_, ?_, ?_, ?_⟩
  · intro h
    rw [tryPrompt, if_pos (by simp [h])]
  · intro h1 h2
    rw [tryPrompt, if_neg (by simp [h1]), if_neg (by simp [h2])]
  · intro hk hd h
    rw [parseFlag, if_neg (by simp [hk])]
    simp only [hd]
    rw [tryPrompt, if_pos (by simp [h])]
    rfl
  · intro hl h
    rw [parseArg]
    simp only [Nat.not_lt.mpr hl, if_false]
    rw [tryPrompt, if_pos (by simp [h])]
  · intro n1 n2 v1 v2 m
    refine ⟨by simp, by simp, by simp, by simp⟩

/-- A string-only flag used by the C7 witness. -/
def c7FlagW : Flag :=
  { description := "q", validate := fun v => match v with | .vStr _ => true | _ => false
    default := none, prompt := none, parse := none }

/-- A string-only positional arg used by the C7 witness. -/
def c7ArgW : Arg :=
  { name := "file", description := "f"
    validate := fun v => match v with | .vStr _ => true | _ => false
    prompt := none, parse := none }

/-- Witness for C7: non-interactive prompting fails with the cannot-prompt
error for a flag and for a positional arg, and an interactive prompt whose
collaborator answers with an invalid value fails with the distinct
prompting-returned-invalid classification. -/
theorem c7_witness :
    tryPrompt "--q" c7FlagW { interactive := false, answer := .undefined }
      = .error (.cannotPrompt "--q")
    ∧ tryPrompt "--q" c7FlagW { interactive := true, answer := .vNum 3 }
      = .error (.promptInvalid "--q" (.vNum 3))
    ∧ parseFlag "q" c7FlagW { pos := [], flags := [] }
        { interactive := false, answer := .undefined }
      = .error (.cli (.cannotPrompt "--q"))
    ∧ parseArg 0 c7ArgW [] { interactive := false, answer := .undefined }
      = .error (.cannotPrompt "arg 1 (file)") := by
  refine ⟨?_, ?_, ?_, ?_⟩
  · exact (c7_prompt_path_errors "--q" c7FlagW c7ArgW 0 { pos := [], flags := [] } []
      { interactive := false, answer := .undefined }).1 rfl
  · exact (c7_prompt_path_errors "--q" c7FlagW c7ArgW 0 { pos := [], flags := [] } []
      { interactive := true, answer := .vNum 3 }).2.1 rfl rfl
  · exact (c7_prompt_path_errors "q" c7FlagW c7ArgW 0 { pos := [], flags := [] } []
      { interactive := false, answer := .undefined }).2.2.1 rfl rfl rfl
  · exact (c7_prompt_path_errors "q" c7FlagW c7ArgW 0 { pos := [], flags := [] } []
      { interactive := false, answer := .undefined }).2.2.2.1 (by decide) rfl

/-- C8: for every `FlagsCommand` and raw arguments without a help flag, a
non-empty positional token list makes `runCommand` fail with the classified
"Expected 0 args" error — identically for every prompting environment and
before any flag resolution could matter — whose details carry every extra
token and whose message names every extra token. -/
theorem c8_flags_command_rejects_positionals (name : String) (c : FlagsCommand)
    (argv : MinimistArgv) (env env' : PromptEnv)
    (hh : wantsHelp argv = false) (hp : argv.pos ≠ []) :
    runCommand name (.flagsCommand c) argv env
      = .error (.cli (.expectedZeroArgs argv.pos))
    ∧ runCommand name (.flagsCommand c) argv env
      = runCommand name (.flagsCommand c) argv env'
    ∧ (CLIErr.expectedZeroArgs argv.pos).details = .values argv.pos
    ∧ ∀ t ∈ argv.pos, ∃ pre post,
        (CLIErr.expectedZeroArgs argv.pos).message.data = pre ++ (inspect t).data ++ post := by
  have herr : ∀ e0 : PromptEnv, runCommand name (.flagsCommand c) argv e0
      = .error (.cli (.expectedZeroArgs argv.pos)) := by
    intro e0
    rw [runCommand.eq_def, if_neg (by simp [hh])]
    show (if argv.pos.length > 0 then _ else _) = _
    rw [if_pos (by simpa [List.length_pos] using hp)]
  refine ⟨herr env, (herr env).trans (herr env').symm, rfl, ?_⟩
  intro t ht
  have hmem : inspect t ∈ argv.pos.map inspect := List.mem_map_of_mem _ ht
  rcases joinSep_mem_sub ", " hmem with ⟨pre, post, hjp⟩
  refine ⟨("Expected 0 args, but given " ++ natRepr argv.pos.length ++ ": ").data ++ pre,
    post, ?_⟩
  show (("Expected 0 args, but given " ++ natRepr argv.pos.length ++ ": ")
      ++ joinSep ", " (argv.pos.map inspect)).data = _
  rw [String.data_append, hjp]
  simp

/-- A flags-only command with an unresolvable flag, for the C8 witness. -/
def c8CmdW : FlagsCommand :=
  { description := "w"
    flags := [("req", { description := "r", validate := fun _ => false
                        default := none, prompt := none, parse := none })] }

/-- Witness for C8: two surplus positional tokens (and even an unknown flag)
yield the expected-0-args error naming both tokens, before any flag
resolution and without prompting. -/
theorem c8_witness :
    runCommand "demo" (.flagsCommand c8CmdW)
      { pos := [.vStr "a", .vNum 2], flags := [("zzz", .vNum 1)] }
      { interactive := false, answer := .undefined }
      = .error (.cli (.expectedZeroArgs [.vStr "a", .vNum 2]))
    ∧ (CLIErr.expectedZeroArgs [.vStr "a", .vNum 2]).message
      = "Expected 0 args, but given 2: \"a\", 2" := by
  constructor
  · exact (c8_flags_command_rejects_positionals "demo" c8CmdW
      { pos := [.vStr "a", .vNum 2], flags := [("zzz", .vNum 1)] }
      { interactive := false, answer := .undefined } { interactive := false, answer := .undefined }
      (by decide) (by decide)).1
  · rfl

/-! ### Supporting lemmas: positional resolution by index -/

theorem parseArgsArray_eq_loop (argsArray : List Arg) (argv : MinimistArgv)
    (env : PromptEnv) :
    parseArgsArray argsArray argv env = parseArgsLoop argsArray 0 argv.pos env := by
  show (if argsArray.length < argsArray.length then
          Except.error (CLIErr.expectedAtMost argsArray.length argv.pos)
        else parseArgsLoop argsArray 0 argv.pos env) = _
  rw [if_neg (lt_irrefl _)]

theorem parseArgsLoop_spec (args : List Arg) :
    ∀ (i : Nat) (pos : List Value) (env : PromptEnv), i + args.length ≤ pos.length →
      parseArgsLoop args i pos env = specArgsByIndex args i pos := by
  induction args with
  | nil => intro i pos env h; rfl
  | cons a rest ih =>
    intro i pos env h
    have hi : i < pos.length := by simp only [List.length_cons] at h; omega
    have hp : parseArg i a pos env
        = tryParseValue (argDisplayName i a) a.toFlag (pos.getD i .undefined) := by
      rw [parseArg, if_pos hi]
    rw [parseArgsLoop, specArgsByIndex, hp]
    cases htv : tryParseValue (argDisplayName i a) a.toFlag (pos.getD i .undefined) with
    | error e => rfl
    | ok v => rw [ih (i + 1) pos env (by simp only [List.length_cons] at h; omega)]

theorem parseArgsLoop_length (args : List Arg) :
    ∀ (i : Nat) (pos : List Value) (env : PromptEnv) (vs : List Value),
      parseArgsLoop args i pos env = .ok vs → vs.length = args.length := by
  induction args with
  | nil => intro i pos env vs h; cases h; rfl
  | cons a rest ih =>
    intro i pos env vs h
    rw [parseArgsLoop] at h
    split at h
    · cases h
    · split at h
      · cases h
      next v hv vs2 hvs2 =>
        cases h
        simp [ih (i + 1) pos env vs2 hvs2]

/-- Positional arg fixture `a` for the C6 example. -/
def c6ArgA : Arg :=
  { name := "a", description := "first"
    validate := fun v => match v with | .vStr _ => true | _ => false
    prompt := none, parse := none }

/-- Positional arg fixture `b` for the C6 example. -/
def c6ArgB : Arg :=
  { name := "b", description := "second"
    validate := fun v => match v with | .vStr _ => true | _ => false
    prompt := none, parse := none }

/-- Rest arg fixture `c` for the C6 example. -/
def c6ArgC : Arg :=
  { name := "c", description := "rest"
    validate := fun v => match v with | .vStr _ => true | _ => false
    prompt := none, parse := none }

/-- The C6 example command: args `[a, b]` and rest `c`, no flags. -/
def c6CmdW : ArgsCommand :=
  { description := "d", flags := [], args := [c6ArgA, c6ArgB], rest := c6ArgC }

/-- C6: an `ArgsCommand`'s declared positional specs are resolved strictly in
declared order by index against the raw positional tokens (when every
declared index has a token, resolution agrees with the spec-side by-index
restatement and consults no prompting environment); each declared spec yields
exactly one value, so the rest spec receives exactly the remaining tokens; an
empty remainder resolves to an empty result with no validation performed (for
every rest spec, even one rejecting everything); and on the spec's example —
args `[a, b]`, rest `c`, tokens `["1","2","3","4"]` — dispatch yields
`a="1"`, `b="2"`, rest `["3","4"]`, the given string tokens taken as-is, not
auto-coerced. -/
theorem c6_positionals_then_rest (c : ArgsCommand) (argv : MinimistArgv)
    (env env' : PromptEnv) :
    (c.args.length ≤ argv.pos.length →
      parseArgsArray c.args argv env = specArgsByIndex c.args 0 argv.pos
      ∧ parseArgsArray c.args argv env = parseArgsArray c.args argv env')
    ∧ (∀ r : Arg, parseRest r [] = .ok [])
    ∧ (∀ vs, parseArgsArray c.args argv env = .ok vs → vs.length = c.args.length)
    ∧ runCommand "demo" (.argsCommand c6CmdW)
        { pos := [.vStr "1", .vStr "2", .vStr "3", .vStr "4"], flags := [] }
        { interactive := false, answer := .undefined }
      = .ok (.ranArgs [] [.vStr "1", .vStr "2"] [.vStr "3", .vStr "4"]) := by
  refine ⟨?_, fun r => rfl, ?_, by decide⟩
  · intro h
    have h1 : parseArgsArray c.args argv env = specArgsByIndex c.args 0 argv.pos := by
      rw [parseArgsArray_eq_loop, parseArgsLoop_spec c.args 0 argv.pos env (by omega)]
    have h2 : parseArgsArray c.args argv env' = specArgsByIndex c.args 0 argv.pos := by
      rw [parseArgsArray_eq_loop, parseArgsLoop_spec c.args 0 argv.pos env' (by omega)]
    exact ⟨h1, h1.trans h2.symm⟩
  · intro vs h
    rw [parseArgsArray_eq_loop] at h
    exact parseArgsLoop_length c.args 0 argv.pos env vs h

/-- Witness for C6 at concrete inputs: all-given tokens resolve by index as
the spec-side restatement does, an empty remainder resolves to an empty rest
with no validation, and the resolved declared-args list has exactly the
declared length. -/
theorem c6_witness :
    parseArgsArray c6CmdW.args { pos := [.vStr "1", .vStr "2", .vStr "3"], flags := [] }
        { interactive := false, answer := .undefined }
      = specArgsByIndex c6CmdW.args 0 [.vStr "1", .vStr "2", .vStr "3"]
    ∧ parseRest c6CmdW.rest [] = .ok []
    ∧ ([Value.vStr "1", Value.vStr "2"] : List Value).length = c6CmdW.args.length := by
  have h := c6_positionals_then_rest c6CmdW
    { pos := [.vStr "1", .vStr "2", .vStr "3"], flags := [] }
    { interactive := false, answer := .undefined } { interactive := false, answer := .undefined }
  exact ⟨(h.1 (by decide)).1, h.2.1 c6CmdW.rest,
    (h.2.2).1 [Value.vStr "1", Value.vStr "2"] (by decide)⟩

/-- The `greet` command fixture for the C1 bug demonstration. -/
def c1GreetW : Command :=
  .flagsCommand
    { description := "Say hello"
      flags := [("name", { description := "who", validate := fun v => match v with
                             | .vStr _ => true | _ => false
                           default := none, prompt := none, parse := none })] }

/-- C1 (bug demonstration): with no positional token at all, or with `help`
as the only token, or with only a help flag, `runLoaders` evaluates
`args[0].toString()` on an `undefined` element and throws a TypeError instead
of rendering the full command list; only with a second token present does it
reach the claimed behavior of showing that subcommand's help through a
synthesized help-requesting dispatch. -/
theorem c1_runLoaders_crashes_without_second_token :
    runLoaders "cli" [("greet", c1GreetW)] { pos := [], flags := [] }
      { interactive := false, answer := .undefined } = .error .typeError
    ∧ runLoaders "cli" [("greet", c1GreetW)] { pos := [.vStr "help"], flags := [] }
      { interactive := false, answer := .undefined } = .error .typeError
    ∧ runLoaders "cli" [("greet", c1GreetW)] { pos := [], flags := [("help", .vBool true)] }
      { interactive := false, answer := .undefined } = .error .typeError
    ∧ runLoaders "cli" [("greet", c1GreetW)] { pos := [.vStr "help", .vStr "greet"], flags := [] }
      { interactive := false, answer := .undefined } = .ok (.helpShown "cli greet") := by
  refine ⟨by decide, by decide, by decide, by decide⟩

/-! ### Supporting lemmas: unparse / tokenize round trip -/

theorem stringMk_data (s : String) : String.mk s.data = s := by
  cases s
  rfl

theorem dashData (k : String) : ("--" ++ k).data = '-' :: '-' :: k.data := by
  rw [String.data_append]
  rfl

theorem dashEqData (k v : String) :
    ("--" ++ k ++ "=" ++ v).data = '-' :: '-' :: (k.data ++ '=' :: v.data) := by
  rw [String.data_append, String.data_append, String.data_append]
  simp

theorem splitEq_none {l : List Char} (h : '=' ∉ l) : splitEq l = none := by
  induction l with
  | nil => rfl
  | cons c rest ih =>
    rw [splitEq, if_neg (by simp at h; exact fun hc => h.1 hc.symm)]
    rw [ih (by simp at h; exact h.2)]
    rfl

theorem splitEq_append {l1 : List Char} (l2 : List Char) (h : '=' ∉ l1) :
    splitEq (l1 ++ '=' :: l2) = some (l1, l2) := by
  induction l1 with
  | nil => simp [splitEq]
  | cons c rest ih =>
    rw [List.cons_append, splitEq,
      if_neg (by simp at h; exact fun hc => h.1 hc.symm)]
    rw [ih (by simp at h; exact h.2)]
    rfl

theorem parseFlagToken_of_data {t : String} {body : List Char}
    (h : t.data = '-' :: '-' :: body) :
    parseFlagToken t =
      match splitEq body with
      | some p => some (String.mk p.1, defaultParser (.vStr (String.mk p.2)))
      | none => some (String.mk body, .vBool true) := by
  unfold parseFlagToken
  rw [h]
  exact if_pos ⟨rfl, rfl⟩

/-- The token `unparseFlags` pushes for a declared key holding a truthy
resolved value. -/
def tokenOf (flags : List (String × Value)) (key : String) : String :=
  if lookupVal flags key = Value.vBool true then "--" ++ key
  else "--" ++ key ++ "=" ++ jsonStringify (lookupVal flags key)

theorem parseFlagToken_tokenOf (flags : List (String × Value)) (k : String)
    (hk : '=' ∉ k.data)
    (hv : lookupVal flags k = Value.vBool true ∨ ∃ n : Int, lookupVal flags k = .vNum n) :
    parseFlagToken (tokenOf flags k) = some (k, lookupVal flags k) := by
  by_cases hb : lookupVal flags k = Value.vBool true
  · rw [tokenOf, if_pos hb, parseFlagToken_of_data (dashData k), splitEq_none hk,
      stringMk_data, hb]
  · rcases hv with hv | ⟨n, hn⟩
    · exact absurd hv hb
    · have htok : tokenOf flags k = "--" ++ k ++ "=" ++ intRepr n := by
        rw [tokenOf, if_neg hb, hn]
        rfl
      rw [htok, parseFlagToken_of_data (dashEqData k (intRepr n)),
        splitEq_append (intRepr n).data hk]
      show some (String.mk k.data, defaultParser (.vStr (String.mk (intRepr n).data))) = _
      rw [stringMk_data, stringMk_data, defaultParser_intRepr, hn]

theorem unparseFlags_eq_map (flagMap : List (String × Flag)) (flags : List (String × Value))
    (h : ∀ k ∈ flagMap.map Prod.fst, truthy (lookupVal flags k) = true) :
    unparseFlags flagMap flags = (flagMap.map Prod.fst).map (tokenOf flags) := by
  suffices H : ∀ (keys : List String) (acc : List String),
      (∀ k ∈ keys, truthy (lookupVal flags k) = true) →
      keys.foldl (fun results key =>
        if lookupVal flags key = Value.vBool true then results ++ ["--" ++ key]
        else if truthy (lookupVal flags key) then
          results ++ ["--" ++ key ++ "=" ++ jsonStringify (lookupVal flags key)]
        else results) acc = acc ++ keys.map (tokenOf flags) by
    simpa using H (flagMap.map Prod.fst) [] h
  intro keys
  induction keys with
  | nil => intro acc h2; simp
  | cons k rest ih =>
    intro acc h2
    rw [List.foldl_cons, List.map_cons]
    by_cases hb : lookupVal flags k = Value.vBool true
    · rw [if_pos hb, ih _ (fun m hm => h2 m (by simp [hm]))]
      simp [tokenOf, hb]
    · rw [if_neg hb, if_pos (h2 k (by simp)), ih _ (fun m hm => h2 m (by simp [hm]))]
      simp [tokenOf, hb]

theorem filterMap_all_some {α β : Type} (f : α → Option β) (g : α → β) (l : List α)
    (h : ∀ a ∈ l, f a = some (g a)) : l.filterMap f = l.map g := by
  induction l with
  | nil => rfl
  | cons a rest ih =>
    rw [List.filterMap_cons, h a (by simp), List.map_cons,
      ih (fun b hb => h b (by simp [hb]))]

theorem find_map_pair (g : String → Value) (keys : List String) (k : String)
    (h : k ∈ keys) :
    (keys.map (fun m => (m, g m))).find? (fun p => p.1 == k) = some (k, g k) := by
  induction keys with
  | nil => cases h
  | cons a rest ih =>
    rw [List.map_cons]
    by_cases hak : a = k
    · subst hak
      rw [List.find?_cons_of_pos _ (by simp)]
    · rw [List.find?_cons_of_neg _ (by simp [hak])]
      exact ih (by rcases List.mem_cons.mp h with rfl | h2; exact absurd rfl hak; exact h2)

theorem lookup_map_pair (g : String → Value) (keys : List String) (k : String)
    (h : k ∈ keys) : lookupVal (keys.map (fun m => (m, g m))) k = g k := by
  unfold lookupVal
  rw [find_map_pair g keys k h]

theorem mem_phases {flagMap : List (String × Flag)} {k : String}
    (hk : k ∈ flagMap.map Prod.fst) :
    k ∈ defaultableFlagNames flagMap ++ nonDefaultableFlagNames flagMap := by
  rw [List.mem_append, defaultableFlagNames, nonDefaultableFlagNames]
  by_cases hdef : (findFlag flagMap k).default.isSome
  · exact .inl (List.mem_filter.mpr ⟨hk, by simp [hdef]⟩)
  · exact .inr (List.mem_filter.mpr ⟨hk, by simp [hdef]⟩)

/-- Resolving a flag map against raw arguments that give every declared flag
a value its validator accepts (with no custom parsers) succeeds, producing
exactly the given values in the two-phase processing order. -/
theorem parseFlagMap_given_all (flagMap : List (String × Flag)) (g : String → Value)
    (env : PromptEnv)
    (hkeys : ∀ k ∈ flagMap.map Prod.fst, k ≠ "_" ∧ k ≠ "$0")
    (hparse : ∀ k ∈ flagMap.map Prod.fst, (findFlag flagMap k).parse = none)
    (hvalid : ∀ k ∈ flagMap.map Prod.fst, (findFlag flagMap k).validate (g k) = true) :
    parseFlagMap flagMap
        { pos := [], flags := (flagMap.map Prod.fst).map (fun k => (k, g k)) } env
      = .ok ((defaultableFlagNames flagMap ++ nonDefaultableFlagNames flagMap).map
          (fun k => (k, g k))) := by
  set A : MinimistArgv :=
    { pos := [], flags := (flagMap.map Prod.fst).map (fun k => (k, g k)) } with hA
  have hhas : ∀ k ∈ flagMap.map Prod.fst, MinimistArgv.hasKey A k = true := by
    intro k hk
    unfold MinimistArgv.hasKey
    rw [show A.flags = (flagMap.map Prod.fst).map (fun k => (k, g k)) from rfl,
      find_map_pair g _ k hk]
    rfl
  have hget : ∀ k ∈ flagMap.map Prod.fst, MinimistArgv.get A k = g k := by
    intro k hk
    unfold MinimistArgv.get
    rw [show A.flags = (flagMap.map Prod.fst).map (fun k => (k, g k)) from rfl,
      find_map_pair g _ k hk]
  have hflag : ∀ k ∈ flagMap.map Prod.fst,
      parseFlag k (findFlag flagMap k) A env = .ok (g k) := by
    intro k hk
    rw [parseFlag, if_pos (hhas k hk), hget k hk]
    have htv : tryParseValue ("--" ++ k) (findFlag flagMap k) (g k) = .ok (g k) := by
      unfold tryParseValue
      simp only [hparse k hk]
      rw [if_pos (hvalid k hk)]
    rw [htv]
    rfl
  have hresolve : ∀ (names : List String), (∀ n ∈ names, n ∈ flagMap.map Prod.fst) →
      ∀ (acc : List (String × Value)),
      parseFlags flagMap names A env acc = .ok (acc ++ names.map (fun k => (k, g k))) := by
    intro names
    induction names with
    | nil => intro h2 acc; simp [parseFlags]
    | cons n rest ih =>
      intro h2 acc
      rw [parseFlags, hflag n (h2 n (by simp))]
      show parseFlags flagMap rest A env (acc ++ [(n, g n)]) = _
      rw [ih (fun m hm => h2 m (by simp [hm])) _]
      simp
  have hAfst : A.flags.map Prod.fst = flagMap.map Prod.fst := by
    rw [show A.flags = (flagMap.map Prod.fst).map (fun k => (k, g k)) from rfl,
      List.map_map]
    simp
  have hgiven : givenFlagNames A = flagMap.map Prod.fst := by
    rw [givenFlagNames, hAfst]
    rw [List.filter_eq_self.mpr]
    intro k hk
    have h2 := hkeys k hk
    simp [h2.1, h2.2]
  have hunknown : unknownFlagsOf flagMap A = [] := by
    rw [unknownFlagsOf, hgiven]
    rw [List.filter_eq_nil_iff.mpr]
    intro k hk
    simp [List.contains, List.elem_eq_mem, hk]
  rw [parseFlagMap, hunknown, if_neg (by simp)]
  rw [hresolve (defaultableFlagNames flagMap)
    (fun n hn => (List.mem_filter.mp hn).1) []]
  show parseFlags flagMap (nonDefaultableFlagNames flagMap) A env
      ([] ++ (defaultableFlagNames flagMap).map (fun k => (k, g k))) = _
  rw [hresolve (nonDefaultableFlagNames flagMap)
    (fun n hn => (List.mem_filter.mp hn).1) _]
  simp

/-- The one-flag map declaring the string flag `name`, for the C9
counterexample. -/
def c9FlagStrW : Flag :=
  { description := "who", validate := fun v => match v with | .vStr _ => true | _ => false
    default := none, prompt := none, parse := none }

/-- Counterexample for C9 as stated: a resolved flag map holding the
primitive string value `"Ada"` unparses to the token `--name="Ada"` (the
source JSON-stringifies the value), and re-tokenizing and re-resolving that
yields the string `"Ada"` WITH the quote characters in it — a different
value — so the round trip fails on primitive string values. -/
theorem c9_counterexample :
    unparseFlags [("name", c9FlagStrW)] [("name", .vStr "Ada")] = ["--name=\"Ada\""]
    ∧ parseFlagMap [("name", c9FlagStrW)]
        (tokenize (unparseFlags [("name", c9FlagStrW)] [("name", .vStr "Ada")]))
        { interactive := true, answer := .undefined }
      = .ok [("name", .vStr "\"Ada\"")]
    ∧ Value.vStr "\"Ada\"" ≠ Value.vStr "Ada" := by
  refine ⟨by decide, by decide, by decide⟩

/-- C9 amended: for every flag map whose declared names are ordinary flag
names (not the reserved `_`/`$0`, no `=` inside a name) and declare no custom
parser, and whose resolved values are only boolean-true and nonzero integer
values, `unparseFlags` produces a raw-flag representation that re-resolves
against the same flag map to the same values. Primitive string values are
excluded because JSON stringification bakes quotes into the re-parsed value
(the counterexample); zero is excluded because falsy values are skipped
entirely by `unparseFlags`. -/
theorem c9_roundtrip_amended (flagMap : List (String × Flag)) (flags : List (String × Value))
    (env : PromptEnv)
    (hkeys : ∀ k ∈ flagMap.map Prod.fst, k ≠ "_" ∧ k ≠ "$0" ∧ '=' ∉ k.data)
    (hparse : ∀ k ∈ flagMap.map Prod.fst, (findFlag flagMap k).parse = none)
    (hvals : ∀ k ∈ flagMap.map Prod.fst,
      lookupVal flags k = .vBool true ∨ ∃ n : Int, n ≠ 0 ∧ lookupVal flags k = .vNum n)
    (hvalid : ∀ k ∈ flagMap.map Prod.fst,
      (findFlag flagMap k).validate (lookupVal flags k) = true) :
    ∃ res, parseFlagMap flagMap (tokenize (unparseFlags flagMap flags)) env = .ok res
      ∧ ∀ k ∈ flagMap.map Prod.fst, lookupVal res k = lookupVal flags k := by
  have htruth : ∀ k ∈ flagMap.map Prod.fst, truthy (lookupVal flags k) = true := by
    intro k hk
    rcases hvals k hk with hb | ⟨n, hn0, hn⟩
    · rw [hb]; rfl
    · rw [hn]
      simp [truthy, hn0]
  have htok : ∀ k ∈ flagMap.map Prod.fst,
      parseFlagToken (tokenOf flags k) = some (k, lookupVal flags k) := by
    intro k hk
    refine parseFlagToken_tokenOf flags k (hkeys k hk).2.2 ?_
    rcases hvals k hk with hb | ⟨n, _, hn⟩
    · exact .inl hb
    · exact .inr ⟨n, hn⟩
  have hargv : tokenize (unparseFlags flagMap flags)
      = { pos := [],
          flags := (flagMap.map Prod.fst).map (fun k => (k, lookupVal flags k)) } := by
    rw [unparseFlags_eq_map flagMap flags htruth, tokenize]
    congr 1
    · have h1 : ((flagMap.map Prod.fst).map (tokenOf flags)).filter
          (fun t => (parseFlagToken t).isNone) = [] := by
        rw [List.filter_eq_nil_iff]
        intro t ht
        rcases List.mem_map.mp ht with ⟨k, hk, rfl⟩
        simp [htok k hk]
      rw [h1]
      rfl
    · rw [List.filterMap_map]
      exact filterMap_all_some _ _ _ (fun k hk => htok k hk)
  rw [hargv]
  refine ⟨(defaultableFlagNames flagMap ++ nonDefaultableFlagNames flagMap).map
      (fun k => (k, lookupVal flags k)), ?_, ?_⟩
  · exact parseFlagMap_given_all flagMap (fun k => lookupVal flags k) env
      (fun k hk => ⟨(hkeys k hk).1, (hkeys k hk).2.1⟩) hparse hvalid
  · intro k hk
    exact lookup_map_pair (fun m => lookupVal flags m) _ k (mem_phases hk)

/-- A boolean flag for the C9 amended witness. -/
def c9VerboseW : Flag :=
  { description := "v", validate := fun v => match v with | .vBool _ => true | _ => false
    default := none, prompt := none, parse := none }

/-- An integer flag for the C9 amended witness. -/
def c9CountW : Flag :=
  { description := "c", validate := fun v => match v with | .vNum _ => true | _ => false
    default := none, prompt := none, parse := none }

/-- Witness for the amended C9 at a concrete flag map holding a boolean-true
value and a nonzero integer value. -/
theorem c9_amended_witness :
    ∃ res, parseFlagMap [("verbose", c9VerboseW), ("count", c9CountW)]
        (tokenize (unparseFlags [("verbose", c9VerboseW), ("count", c9CountW)]
          [("verbose", .vBool true), ("count", .vNum 3)]))
        { interactive := false, answer := .undefined } = .ok res
      ∧ ∀ k ∈ ([("verbose", c9VerboseW), ("count", c9CountW)] :
            List (String × Flag)).map Prod.fst,
          lookupVal res k
            = lookupVal [("verbose", Value.vBool true), ("count", Value.vNum 3)] k :=
  c9_roundtrip_amended [("verbose", c9VerboseW), ("count", c9CountW)]
    [("verbose", .vBool true), ("count", .vNum 3)]
    { interactive := false, answer := .undefined }
    (by decide)
    (by
      intro k hk
      simp only [List.map_cons, List.map_nil, List.mem_cons, List.not_mem_nil,
        or_false] at hk
      rcases hk with rfl | rfl <;> rfl)
    (by
      intro k hk
      simp only [List.map_cons, List.map_nil, List.mem_cons, List.not_mem_nil,
        or_false] at hk
      rcases hk with rfl | rfl
      · exact .inl (by decide)
      · exact .inr ⟨3, by decide, by decide⟩)
    (by
      intro k hk
      simp only [List.map_cons, List.map_nil, List.mem_cons, List.not_mem_nil,
        or_false] at hk
      rcases hk with rfl | rfl <;> rfl)

end TsCli
